import Mathlib

/-!
Verification of the portuna-superbid crawl-filter-normalize-sync pipeline.

The development shallowly embeds the two Python modules
`src/scrapers/superbid_scraper.py` and `src/scrapers/supabase_client.py`.
JSON-like Python values are modelled by the inductive type `JVal`;
Python dictionaries are association lists; code that can raise is modelled
in the `Except PyErr` monad; `datetime` and the network are passed in as
explicit parameters (a pure function record and response lists), since they
are the only impure inputs of the translated code.
-/

/-- Exceptions that the embedded Python fragments can raise.
`attributeError` models calling a method (such as `.get`, `.lower`,
`.strip`) on a value that does not support it (for example `None`);
`typeError` models the remaining type failures (such as slicing or
iterating a non-sequence). -/
inductive PyErr where
  | attributeError
  | typeError
deriving DecidableEq, Repr

/-- JSON-like Python values as they occur in the scraper's raw offers:
`None`, booleans, integers, strings, lists and dictionaries. -/
inductive JVal where
  | null
  | bool (b : Bool)
  | int (n : Int)
  | str (s : String)
  | arr (xs : List JVal)
  | obj (fields : List (String × JVal))

/-- A Python dictionary with string keys, as used for raw offers. -/
abbrev PyDict := List (String × JVal)

/-- Python truthiness (`bool(v)`) for the modelled values. -/
def pyTruthy : JVal → Bool
  | .null => false
  | .bool b => b
  | .int n => n != 0
  | .str s => s != ""
  | .arr xs => !xs.isEmpty
  | .obj fields => !fields.isEmpty

/-- Raw lookup in a dictionary: the value at the first matching key. -/
def dictLookup (d : PyDict) (k : String) : Option JVal :=
  (d.find? (fun p => p.1 == k)).map (·.2)

/-- `d.get(k, default)` on a dictionary known to be a `dict`
(the function parameters of the Python code). Never raises. -/
def jget (d : PyDict) (k : String) (dflt : JVal) : JVal :=
  (dictLookup d k).getD dflt

/-- `d.get(k)` on a dictionary known to be a `dict`: absent keys give `None`. -/
def jgetNone (d : PyDict) (k : String) : JVal :=
  jget d k .null

/-- `v.get(k, default)` on an arbitrary value: raises `AttributeError`
unless `v` is a dictionary (in Python, `None.get`, `"x".get`, `5 .get`
all raise). -/
def vgetD (v : JVal) (k : String) (dflt : JVal) : Except PyErr JVal :=
  match v with
  | .obj d => .ok (jget d k dflt)
  | _ => .error .attributeError

/-- `v.get(k)` on an arbitrary value, absent keys giving `None`. -/
def vgetN (v : JVal) (k : String) : Except PyErr JVal :=
  vgetD v k .null

/-- Python's `a or b` on values: `a` if truthy, else `b`. -/
def pyOr (a b : JVal) : JVal :=
  if pyTruthy a then a else b

/-- Whether the char list `hay` starts with the char list `needle`. -/
def chStarts : List Char → List Char → Bool
  | [], _ => true
  | _ :: _, [] => false
  | a :: as, b :: bs => a == b && chStarts as bs

/-- Whether `needle` occurs as a contiguous sublist of `hay`. -/
def chHas (needle : List Char) : List Char → Bool
  | [] => needle.isEmpty
  | l@(_ :: t) => chStarts needle l || chHas needle t

/-- Python's substring test `needle in hay`. -/
def strHas (hay needle : String) : Bool :=
  chHas needle.data hay.data

/-- Python's `s.lower()` (the source data is ASCII where it matters). -/
def pyLower (s : String) : String :=
  String.mk (s.data.map Char.toLower)

/-- Python's `s.upper()` (ASCII). -/
def pyUpper (s : String) : String :=
  String.mk (s.data.map Char.toUpper)

/-- The characters Python's `str.strip()` and `str.split()` treat as
whitespace (the ASCII ones; the source strings are ASCII/latin text). -/
def pyIsSpace (c : Char) : Bool :=
  c == ' ' || c == '\t' || c == '\n' || c == '\r' || c == '\x0b' || c == '\x0c'

/-- Python's `s.strip()`. -/
def pyStrip (s : String) : String :=
  String.mk (((s.data.dropWhile pyIsSpace).reverse.dropWhile pyIsSpace).reverse)

/-- Python's `s.split()` with no argument: split on whitespace runs,
dropping empty words. -/
def pySplitWs (s : String) : List String :=
  ((s.data.splitOnP pyIsSpace).map String.mk).filter (fun w => w != "")

/-- Python's `s.isupper()`: at least one cased character and no lowercase
cased character (ASCII). -/
def pyIsUpperStr (s : String) : Bool :=
  s.data.any Char.isUpper && s.data.all (fun c => !c.isLower)

/-- `v.lower()` on an arbitrary value: only strings support it. -/
def pyLowerJ (v : JVal) : Except PyErr String :=
  match v with
  | .str s => .ok (pyLower s)
  | _ => .error .attributeError

/-- The coercion the classifier applies to optional text fields:
`x = d.get(k) or ""` followed by `x = x.lower() if x else ""`. -/
def coerceLower (v : JVal) : Except PyErr String :=
  let v0 := pyOr v (.str "")
  if pyTruthy v0 then pyLowerJ v0 else .ok ""

/-- `SuperbidScraper.is_test_offer` (superbid_scraper.py, lines 84-121),
translated clause by clause.  The nested objects are fetched with
`offer.get(key, {})`, so an *absent* key defaults to an empty dict, while a
key that is *present* with value `None` stays `None` and the subsequent
`.get` raises `AttributeError`. -/
def is_test_offer (offer : PyDict) : Except PyErr (Bool × String) :=
  let seller := jget offer "seller" (.obj [])
  let auction := jget offer "auction" (.obj [])
  let product := jget offer "product" (.obj [])
  let store := jget offer "store" (.obj [])
  -- 1. store_name NULL
  match vgetN store "name" with
  | .error e => .error e
  | .ok store_name =>
  if !pyTruthy store_name then .ok (true, "no_store")
  else
  -- 2. "Vendedor Demo"
  match vgetN seller "name" with
  | .error e => .error e
  | .ok sname =>
  match coerceLower sname with
  | .error e => .error e
  | .ok seller_name =>
  if strHas seller_name "vendedor demo" || strHas seller_name "demo" then
    .ok (true, "demo_seller")
  else
  -- 3. "Corretor Demo" / "Leiloeiro Demo"
  match vgetN auction "auctioneer" with
  | .error e => .error e
  | .ok aucv =>
  match coerceLower aucv with
  | .error e => .error e
  | .ok auctioneer =>
  if strHas auctioneer "demo" || strHas auctioneer "corretor demo" ||
      strHas auctioneer "leiloeiro demo" then
    .ok (true, "demo_auctioneer")
  else
  -- 4. "deploy" in title or description
  match vgetN product "shortDesc" with
  | .error e => .error e
  | .ok titv =>
  match coerceLower titv with
  | .error e => .error e
  | .ok title =>
  match vgetN (jget offer "offerDescription" (.obj [])) "offerDescription" with
  | .error e => .error e
  | .ok descv =>
  match coerceLower descv with
  | .error e => .error e
  | .ok description =>
  if strHas title "deploy" || strHas description "deploy" then
    .ok (true, "deploy_text")
  else
    .ok (false, "")

/-- `s.split(sep)` on character lists for a non-empty separator
`s0 :: srest`: scan left to right, cutting at each non-overlapping
occurrence of the separator (Python keeps empty pieces).  Structural
recursion on a fuel bounded by the list length (every step consumes at
least one character, so the fuel case below the length is never hit). -/
def chSplitFuel (s0 : Char) (srest : List Char) :
    Nat → List Char → List Char → List (List Char)
  | _, [], acc => [acc.reverse]
  | 0, l, acc => [acc.reverse ++ l]
  | fuel + 1, c :: t, acc =>
    if chStarts (s0 :: srest) (c :: t) then
      acc.reverse :: chSplitFuel s0 srest fuel (t.drop srest.length) []
    else
      chSplitFuel s0 srest fuel t (c :: acc)

/-- Python's `s.split(sep)` for a non-empty separator, on strings. -/
def pySplit (s : String) (s0 : Char) (srest : List Char) : List String :=
  (chSplitFuel s0 srest s.data.length s.data []).map String.mk

/-- `SuperbidScraper.extract_city_state` (superbid_scraper.py, lines
269-289), core logic on a non-empty string: split on `/`, else on ` - `;
the right part is kept as state only if it is truthy and fails the
"not (length 2 and uppercase)" test; otherwise it is reset to `None`
(a falsy empty-string candidate is kept as-is, exactly as in the source). -/
def extract_city_state_core (s : String) : Option String × Option String :=
  let t := pyStrip s
  let (city, state) :=
    if t.data.contains '/' then
      let parts := pySplit t '/' []
      (pyStrip (parts.headD ""),
       if parts.length > 1 then some (pyStrip (parts.getD 1 "")) else none)
    else if strHas t " - " then
      let parts := pySplit t ' ' ['-', ' ']
      (pyStrip (parts.headD ""),
       if parts.length > 1 then some (pyStrip (parts.getD 1 "")) else none)
    else (t, none)
  let state :=
    match state with
    | some st =>
        if st != "" && (st.data.length != 2 || !pyIsUpperStr st) then none else some st
    | none => none
  (some city, state)

/-- `SuperbidScraper.extract_city_state` on an arbitrary value: falsy
input gives `(None, None)`; a truthy non-string raises (`.strip()` on a
non-string). -/
def extract_city_state (v : JVal) : Except PyErr (Option String × Option String) :=
  if !pyTruthy v then .ok (none, none)
  else
    match v with
    | .str s => .ok (extract_city_state_core s)
    | _ => .error .attributeError

/-- The `_UFS` set of supabase_client.py (lines 219-220): the 27 Brazilian
region codes. -/
def ufsList : List String :=
  ["AC", "AL", "AP", "AM", "BA", "CE", "DF", "ES", "GO", "MA", "MT", "MS", "MG",
   "PA", "PB", "PR", "PE", "PI", "RJ", "RN", "RS", "RO", "RR", "SC", "SP", "SE", "TO"]

/-- ASCII uppercase letter, the `[A-Z]` character class of the regexes in
supabase_client.py. -/
def isAZ (c : Char) : Bool :=
  'A' ≤ c && c ≤ 'Z'

/-- The `state_end` regex of supabase_client.py (line 213): a dash or a
slash, then `\s*([A-Z]{2})\s*` at end of string, applied with `re.search`:
the string must end in optional whitespace, preceded by exactly two
uppercase letters, preceded by optional whitespace, preceded by a dash or
slash; the group is the two letters.
Because the pattern is anchored at the end, the match (when it exists) is
unique, so scanning from the end is equivalent to `re.search`. -/
def stateEndMatch (s : String) : Option String :=
  match (s.data.reverse).dropWhile pyIsSpace with
  | c2 :: c1 :: rest =>
      if isAZ c1 && isAZ c2 then
        match rest.dropWhile pyIsSpace with
        | sep :: _ => if sep == '-' || sep == '/' then some (String.mk [c1, c2]) else none
        | [] => none
      else none
  | _ => none

/-- `extract_state` (supabase_client.py, lines 233-247): falsy input gives
`None`; otherwise uppercase the text, try the `state_end` regex (its group
is returned only if it is in `_UFS`, else `None` immediately), and finally
scan whole words for a member of `_UFS`. -/
def extract_state (text : Option String) : Option String :=
  match text with
  | none => none
  | some t =>
    if t = "" then none
    else
      let tu := pyUpper t
      match stateEndMatch tu with
      | some uf => if ufsList.contains uf then some uf else none
      | none => (pySplitWs tu).find? (fun w => ufsList.contains w)

/-- ASCII digit, the `\d` class of the date regexes (ASCII input). -/
def isDigitCh (c : Char) : Bool :=
  '0' ≤ c && c ≤ '9'

/-- Try to match `\d{4}-\d{2}-\d{2}` at the head of the character list,
returning the matched ten characters. -/
def isoAt : List Char → Option String
  | y1 :: y2 :: y3 :: y4 :: s1 :: m1 :: m2 :: s2 :: d1 :: d2 :: _ =>
      if isDigitCh y1 && isDigitCh y2 && isDigitCh y3 && isDigitCh y4 &&
          s1 == '-' && isDigitCh m1 && isDigitCh m2 && s2 == '-' &&
          isDigitCh d1 && isDigitCh d2 then
        some (String.mk [y1, y2, y3, y4, s1, m1, m2, s2, d1, d2])
      else none
  | _ => none

/-- `re.search` for the `date_iso` regex `(\d{4}-\d{2}-\d{2})`
(supabase_client.py, line 214): leftmost match. -/
def scanIso : List Char → Option String
  | [] => none
  | l@(_ :: t) =>
      match isoAt l with
      | some m => some m
      | none => scanIso t

/-- Try to match `(\d{2})/(\d{2})/(\d{4})` at the head of the character
list, returning the groups `(day, month, year)`. -/
def brAt : List Char → Option (String × String × String)
  | a1 :: a2 :: s1 :: b1 :: b2 :: s2 :: y1 :: y2 :: y3 :: y4 :: _ =>
      if isDigitCh a1 && isDigitCh a2 && s1 == '/' && isDigitCh b1 && isDigitCh b2 &&
          s2 == '/' && isDigitCh y1 && isDigitCh y2 && isDigitCh y3 && isDigitCh y4 then
        some (String.mk [a1, a2], String.mk [b1, b2], String.mk [y1, y2, y3, y4])
      else none
  | _ => none

/-- `re.search` for the `date_br` regex `(\d{2})/(\d{2})/(\d{4})`
(supabase_client.py, line 215): leftmost match. -/
def scanBr : List Char → Option (String × String × String)
  | [] => none
  | l@(_ :: t) =>
      match brAt l with
      | some m => some m
      | none => scanBr t

/-- `int(parsed[:4])`: the numeric value of the first four characters
(always four ASCII digits here, so `int` cannot raise). -/
def fourDigitVal (s : String) : Int :=
  ((s.data.take 4).foldl (fun a c => a * 10 + (c.toNat - 48)) 0 : Nat)

/-- `parse_date` (supabase_client.py, lines 264-286).  `datetime.now().year`
is the explicit parameter `current_year`; the argument is `Optional[str]`
as in the source window, and falsy input gives `None`.  A year outside
`[current_year - 2, current_year + 5]` gives `None`. -/
def parse_date (current_year : Int) (date_str : Option String) : Option String :=
  match date_str with
  | none => none
  | some s =>
    if s = "" then none
    else
      let parsed? : Option String :=
        match scanIso s.data with
        | some p => some p
        | none =>
          match scanBr s.data with
          | some (day, month, year) => some (year ++ "-" ++ month ++ "-" ++ day)
          | none => none
      match parsed? with
      | none => none
      | some parsed =>
        let year := fourDigitVal parsed
        if year < current_year - 2 || year > current_year + 5 then none
        else some parsed

/-- The `CATEGORIES` slug table of superbid_scraper.py (lines 31-51). -/
def CATEGORIES : List (String × String) :=
  [("carros-motos", "Carros & Motos"),
   ("caminhoes-onibus", "Caminhões & Ônibus"),
   ("imoveis", "Imóveis"),
   ("maquinas-pesadas-agricolas", "Máquinas Pesadas & Agrícolas"),
   ("tecnologia", "Tecnologia"),
   ("eletrodomesticos", "Eletrodomésticos"),
   ("moveis-e-decoracao", "Móveis e Decoração"),
   ("industrial-maquinas-equipamentos", "Industrial, Máquinas & Equipamentos"),
   ("materiais-para-construcao-civil", "Materiais para Construção Civil"),
   ("movimentacao-transporte", "Movimentação & Transporte"),
   ("embarcacoes-aeronaves", "Embarcações & Aeronaves"),
   ("partes-e-pecas", "Partes e Peças"),
   ("sucatas-materiais-residuos", "Sucatas, Materiais & Resíduos"),
   ("bolsas-canetas-joias-e-relogios", "Bolsas, Canetas, Joias e Relógios"),
   ("artes-decoracao-colecionismo", "Artes, Decoração & Colecionismo"),
   ("oportunidades", "Oportunidades"),
   ("cozinhas-e-restaurantes", "Cozinhas e Restaurantes"),
   ("alimentos-e-bebidas", "Alimentos e Bebidas"),
   ("animais", "Animais")]

/-- `CATEGORIES.get(slug, default)`. -/
def categoriesGet (slug dflt : String) : String :=
  ((CATEGORIES.find? (fun p => p.1 == slug)).map (·.2)).getD dflt

/-- Python's `repr` on nested values, used by `str()` on containers. -/
def pyReprW : JVal → String
  | .null => "None"
  | .bool true => "True"
  | .bool false => "False"
  | .int n => toString n
  | .str s => "\x27" ++ s ++ "\x27"
  | .arr xs =>
      "[" ++ String.intercalate ", "
        (xs.attach.map (fun ⟨x, hx⟩ => pyReprW x)) ++ "]"
  | .obj fs =>
      "\x7b" ++ String.intercalate ", "
        (fs.attach.map (fun ⟨⟨k, v⟩, hkv⟩ => "\x27" ++ k ++ "\x27: " ++ pyReprW v)) ++ "\x7d"
decreasing_by
  · have h1 := List.sizeOf_lt_of_mem hx
    simp only [JVal.arr.sizeOf_spec]
    omega
  · have h1 := List.sizeOf_lt_of_mem hkv
    simp only [Prod.mk.sizeOf_spec] at h1
    simp only [JVal.obj.sizeOf_spec]
    omega

/-- Python's `str(v)`: strings unchanged, other values through repr. -/
def pyStr (v : JVal) : String :=
  match v with
  | .null => "None"
  | .bool true => "True"
  | .bool false => "False"
  | .int n => toString n
  | .str s => s
  | .arr xs => pyReprW (.arr xs)
  | .obj fs => pyReprW (.obj fs)

/-- `v.strip()` on an arbitrary value: only strings support it. -/
def pyStripJ (v : JVal) : Except PyErr String :=
  match v with
  | .str s => .ok (pyStrip s)
  | _ => .error .attributeError

/-- First `n` characters of a string (Python `s[:n]`). -/
def strTake (s : String) (n : Nat) : String :=
  String.mk (s.data.take n)

/-- `v[:n]` on an arbitrary value: only strings are sliceable here. -/
def pySliceJ (v : JVal) (n : Nat) : Except PyErr String :=
  match v with
  | .str s => .ok (strTake s n)
  | _ => .error .typeError

/-- `len([i for i in gallery if i.get("link")])`: count the elements of a
list whose `link` entry is truthy; iterating a non-list (or an element
without `.get`) raises. -/
def countGalleryLinks (v : JVal) : Except PyErr Nat :=
  match v with
  | .arr xs =>
      xs.foldlM (fun acc i => do
        let l ← vgetN i "link"
        pure (if pyTruthy l then acc + 1 else acc)) 0
  | _ => .error .typeError

/-- Python's `a or b` where `a` is already fetched and `b` is a further
effectful lookup (evaluated only if `a` is falsy, as `or` short-circuits). -/
def pyOrM (a : JVal) (b : Except PyErr JVal) : Except PyErr JVal :=
  if pyTruthy a then pure a else b

/-- `full_description[:150] if full_description else title[:150]`
(superbid_scraper.py, line 310). -/
def previewOf (full_description : JVal) (title : String) : Except PyErr String :=
  if pyTruthy full_description then pySliceJ full_description 150
  else pure (strTake title 150)

/-- `len([i for i in gallery if i.get("link")]) if gallery else 0`
(superbid_scraper.py, line 336). -/
def totalFotosOf (gallery : JVal) : Except PyErr Nat :=
  if pyTruthy gallery then countGalleryLinks gallery else pure 0

/-- The canonical record built by `SuperbidScraper.normalize_to_schema`
(superbid_scraper.py, lines 363-386); field names follow the dict keys.
Fields that the source stores unprocessed keep type `JVal`. -/
structure CanonicalRecord where
  source : String
  external_id : String
  title : String
  category : String
  value : JVal
  value_text : JVal
  city : Option String
  state : Option String
  description_preview : String
  auction_date : Option String
  days_remaining : Option Int
  auction_type : JVal
  auction_name : JVal
  store_name : JVal
  lot_number : JVal
  total_visits : JVal
  total_bids : JVal
  total_bidders : JVal
  description : JVal
  address : JVal
  link : String
  metadata : JVal

/-- The `datetime` operations `normalize_to_schema` uses on end dates,
passed in as pure parameters: `fromiso` models
`datetime.fromisoformat` on the `Z`-replaced string (`none` models a
raised `ValueError`, caught by the source's `except`), with timestamps as
epoch seconds; `isofmt` models `.isoformat()` on such a timestamp. -/
structure DTLib where
  fromiso : String → Option Int
  isofmt : Int → String

/-- Seconds per day, for `timedelta.days` (which floors toward minus
infinity, `Int.fdiv`). -/
def secondsPerDay : Int := 86400

/-- The `endDate` block of `normalize_to_schema` (lines 312-321): both
`auction_date` and `days_remaining` stay `None` unless `endDate` is truthy,
a string, and parses; any failure inside the `try` is swallowed.
`datetime.now()` is the explicit `now` parameter and only enters
`days_remaining`. -/
def endDatePair (lib : DTLib) (now : Int) (end_date : JVal) : Option Int × Option Int :=
  if pyTruthy end_date then
    match end_date with
    | .str s =>
        match lib.fromiso (s.replace "Z" "+00:00") with
        | some t => (some t, some (max 0 ((t - now).fdiv secondsPerDay)))
        | none => (none, none)
    | _ => (none, none)
  else (none, none)

/-- `SuperbidScraper.normalize_to_schema` (superbid_scraper.py, lines
291-386), translated statement by statement in source order. -/
def normalize_to_schema (lib : DTLib) (now : Int) (offer : PyDict)
    (category_slug : String) : Except PyErr CanonicalRecord := do
  let product := jget offer "product" (.obj [])
  let auction := jget offer "auction" (.obj [])
  let detail := jget offer "offerDetail" (.obj [])
  let seller := jget offer "seller" (.obj [])
  let store := jget offer "store" (.obj [])
  let offer_id := pyStr (jgetNone offer "id")
  let external_id := "superbid_" ++ offer_id
  let title ← pyStripJ (← vgetD product "shortDesc" (.str "Sem título"))
  let category := categoriesGet category_slug "Outros"
  let vmin ← vgetN detail "currentMinBid"
  let value ← pyOrM vmin (vgetN detail "initialBidValue")
  let vtmin ← vgetN detail "currentMinBidFormatted"
  let value_text ← pyOrM vtmin (vgetN detail "initialBidValueFormatted")
  let seller_city_text ← vgetD seller "city" (.str "")
  let cs ← extract_city_state seller_city_text
  let full_description ← vgetD (jget offer "offerDescription" (.obj [])) "offerDescription" (.str "")
  let description_preview ← previewOf full_description title
  let adPair := endDatePair lib now (jgetNone offer "endDate")
  let auction_type ← vgetD auction "modalityDesc" (.str "Leilão")
  let auction_name ← vgetN auction "desc"
  let store_name ← vgetN store "name"
  let lot_number := jgetNone offer "lotNumber"
  let total_visits := jget offer "visits" (.int 0)
  let total_bids := jget offer "totalBids" (.int 0)
  let total_bidders := jget offer "totalBidders" (.int 0)
  let address := seller_city_text
  let link := "https://exchange.superbid.net/oferta/" ++ offer_id
  let gallery ← vgetD product "galleryJson" (.arr [])
  let total_fotos ← totalFotosOf gallery
  let leiloeiro ← vgetN auction "auctioneer"
  let vnome ← vgetN seller "name"
  let vempresa ← vgetN seller "company"
  let pInicial ← vgetN detail "initialBidValue"
  let pInicialFmt ← vgetN detail "initialBidValueFormatted"
  let pMin ← vgetN detail "currentMinBid"
  let pMinFmt ← vgetN detail "currentMinBidFormatted"
  let pMax ← vgetN detail "currentMaxBid"
  let pMaxFmt ← vgetN detail "currentMaxBidFormatted"
  let totalVideos ← vgetD product "videoUrlCount" (.int 0)
  let metadata : JVal := .obj
    [("leiloeiro", leiloeiro),
     ("quantidade_lote", jgetNone offer "quantityInLot"),
     ("vendedor", .obj [("nome", vnome), ("empresa", vempresa)]),
     ("preco_detalhado", .obj
       [("inicial", pInicial), ("inicial_fmt", pInicialFmt),
        ("lance_minimo", pMin), ("lance_minimo_fmt", pMinFmt),
        ("lance_maximo", pMax), ("lance_maximo_fmt", pMaxFmt)]),
     ("midia", .obj [("total_fotos", .int total_fotos), ("total_videos", totalVideos)]),
     ("datas", .obj
       [("criacao", jgetNone offer "createAt"),
        ("publicacao", jgetNone offer "publishedAt")])]
  pure
    { source := "superbid"
      external_id := external_id
      title := title
      category := category
      value := value
      value_text := value_text
      city := cs.1
      state := cs.2
      description_preview := description_preview
      auction_date := adPair.1.map lib.isofmt
      days_remaining := adPair.2
      auction_type := auction_type
      auction_name := auction_name
      store_name := store_name
      lot_number := lot_number
      total_visits := total_visits
      total_bids := total_bids
      total_bidders := total_bidders
      description := full_description
      address := address
      link := link
      metadata := metadata }

/-- One step of building a Python dict keyed by `external_id`
(`{o["external_id"]: o for o in normalized}`): an existing key keeps its
position but takes the new value; a new key is appended. -/
def eidInsert (acc : List CanonicalRecord) (r : CanonicalRecord) : List CanonicalRecord :=
  if acc.any (fun a => a.external_id == r.external_id) then
    acc.map (fun a => if a.external_id == r.external_id then r else a)
  else acc ++ [r]

/-- `list({o["external_id"]: o for o in rs}.values())`, the dedup used by
`save_checkpoint` (line 259), `scrape_all` (lines 410, 432) and `main`
(line 531): one record per `external_id`, last seen wins, ordered by first
occurrence of the key. -/
def dedupByEid (rs : List CanonicalRecord) : List CanonicalRecord :=
  rs.foldl eidInsert []

/-- The record list `save_checkpoint` (superbid_scraper.py, lines 257-267)
normalizes, dedups and hands to `upload_to_supabase`; an exception from
`normalize_to_schema` propagates and nothing is uploaded.  The category
final flush of `scrape_all` (lines 407-421) and the single-category path of
`main` (lines 530-538) build their payload the same way. -/
def checkpointPayload (lib : DTLib) (now : Int) (offers : List PyDict)
    (category_slug : String) : Except PyErr (List CanonicalRecord) :=
  (offers.mapM (fun o => normalize_to_schema lib now o category_slug)).map dedupByEid

/-- `items[i:i+n]` slicing of `range(0, len(items), n)` loops: the batches
of size `n` (the last possibly shorter).  Structural recursion on a fuel
bounded by the list length; for the batch sizes used (200, 500) every step
shortens the list, so the zero-fuel fallback is never reached. -/
def chunksFuel (n : Nat) : Nat → List α → List (List α)
  | _, [] => []
  | 0, l => [l]
  | fuel + 1, l => l.take n :: chunksFuel n fuel (l.drop n)

/-- The batches of size `n` of a list (the last possibly shorter). -/
def chunksOf (n : Nat) (l : List α) : List (List α) :=
  chunksFuel n l.length l

/-- The per-batch counters of the upsert client
(`{'inserted': X, 'updated': Y, 'errors': Z}`). -/
structure Stats3 where
  inserted : Nat
  updated : Nat
  errors : Nat
deriving DecidableEq, Repr

/-- `+=` accumulation of counters. -/
def Stats3.add (a b : Stats3) : Stats3 :=
  ⟨a.inserted + b.inserted, a.updated + b.updated, a.errors + b.errors⟩

/-- Outcome of one POST on the degraded (table-level) path: an HTTP status
code, or a raised exception. -/
inductive SinkResp where
  | status (code : Nat)
  | exc
deriving DecidableEq, Repr

/-- Whether a degraded-path response takes the success branch
(`r.status_code in (200, 201)`). -/
def sinkSuccess : SinkResp → Bool
  | .status c => c == 200 || c == 201
  | .exc => false

/-- Counter contribution of one degraded-path batch of size `n`
(supabase_client.py, lines 182-191): success adds the whole batch to
`inserted`; any other status, or an exception, adds it to `errors`. -/
def fallbackScore (r : SinkResp) (n : Nat) : Stats3 :=
  if sinkSuccess r then ⟨n, 0, 0⟩ else ⟨0, 0, n⟩

/-- The batch loop of `_upsert_fallback`, batch `i` answered by
`respond i`. -/
def runFallbackBatches (respond : Nat → SinkResp) : Nat → List (List α) → Stats3
  | _, [] => ⟨0, 0, 0⟩
  | i, b :: bs => (fallbackScore (respond i) b.length).add (runFallbackBatches respond (i + 1) bs)

/-- `SupabaseClient._upsert_fallback` (supabase_client.py, lines 161-193):
batches of 200 POSTed with `Prefer: resolution=merge-duplicates`, counters
accumulated per batch.  The network is the `respond` parameter. -/
def upsert_fallback (respond : Nat → SinkResp) (items : List α) : Stats3 :=
  runFallbackBatches respond 0 (chunksOf 200 items)

/-- Outcome of one POST on the RPC path: HTTP 200 with the counters of the
JSON body (absent keys already defaulted to 0), another status code, or a
raised exception. -/
inductive RpcResp where
  | okRes (ins upd err : Nat)
  | status (code : Nat)
  | exc
deriving DecidableEq, Repr

/-- Counter contribution of one RPC batch of size `n` (supabase_client.py,
lines 126-150): HTTP 200 adds the response counters; any other status, or
an exception, adds the batch size to `errors`. -/
def rpcScore (r : RpcResp) (n : Nat) : Stats3 :=
  match r with
  | .okRes ins upd err => ⟨ins, upd, err⟩
  | .status _ => ⟨0, 0, n⟩
  | .exc => ⟨0, 0, n⟩

/-- The batch loop of `_upsert_via_rpc`, batch `i` answered by `respond i`. -/
def runRpcBatches (respond : Nat → RpcResp) : Nat → List (List α) → Stats3
  | _, [] => ⟨0, 0, 0⟩
  | i, b :: bs => (rpcScore (respond i) b.length).add (runRpcBatches respond (i + 1) bs)

/-- `SupabaseClient._upsert_via_rpc` (supabase_client.py, lines 112-159):
batches of 500 POSTed to the RPC endpoint. -/
def upsert_via_rpc (respond : Nat → RpcResp) (items : List α) : Stats3 :=
  runRpcBatches respond 0 (chunksOf 500 items)

/-- The full result dict of `upsert_normalized`, `time_ms` included. -/
structure UpsertOut where
  inserted : Nat
  updated : Nat
  errors : Nat
  time_ms : Nat
deriving DecidableEq, Repr

/-- `SupabaseClient.upsert_normalized` (supabase_client.py, lines 91-110)
together with the number of sink requests it issues (one POST per batch on
either path).  `rpcAvailable` is the construction-time capability probe
result `self._rpc_available`; `elapsedMs` is the measured wall-clock
value that the nonempty path writes into `time_ms`. -/
def upsert_normalized (rpcAvailable : Bool) (elapsedMs : Nat)
    (rpcRespond : Nat → RpcResp) (fbRespond : Nat → SinkResp)
    (items : List α) : UpsertOut × Nat :=
  if items.isEmpty then (⟨0, 0, 0, 0⟩, 0)
  else
    let s :=
      if rpcAvailable then upsert_via_rpc rpcRespond items
      else upsert_fallback fbRespond items
    let requests :=
      if rpcAvailable then (chunksOf 500 items).length
      else (chunksOf 200 items).length
    (⟨s.inserted, s.updated, s.errors, elapsedMs⟩, requests)

/-- The possible outcomes of the collaborator calls inside
`upload_to_supabase`.  `insert_raw` is the raw-archive side channel: it is
invoked on the client but `SupabaseClient` (supabase_client.py, lines
19-203) defines no such method, so in the shipped code the call raises
`AttributeError` unconditionally; `rawRaises` is nevertheless kept as a
parameter so the theorem covers any archive implementation. -/
structure UploadEnv where
  /-- `from supabase_client import SupabaseClient` fails. -/
  importFails : Bool
  /-- `SupabaseClient()` raises (missing credentials). -/
  initRaises : Bool
  /-- `client.insert_raw('superbid', offers)` raises. -/
  rawRaises : Bool
  /-- `client.insert_normalized(offers)` raises. -/
  normRaises : Bool
  /-- the value `insert_normalized` returns when it does not raise. -/
  normResult : Int

/-- What a run of `upload_to_supabase` did: which of the two persistence
calls were reached, and the boolean the function returned. -/
structure UploadTrace where
  rawAttempted : Bool
  normalizedAttempted : Bool
  result : Bool
deriving DecidableEq, Repr

/-- `upload_to_supabase` (superbid_scraper.py, lines 455-485): a single
`try` block performs the import, the client construction, the
`insert_raw` archival call and the `insert_normalized` canonical call;
`except ImportError` and `except Exception` both return `False`.  Both
return paths of the success branch return `True`. -/
def upload_to_supabase (env : UploadEnv) : UploadTrace :=
  if env.importFails then ⟨false, false, false⟩
  else if env.initRaises then ⟨false, false, false⟩
  else if env.rawRaises then ⟨true, false, false⟩
  else if env.normRaises then ⟨true, true, false⟩
  else ⟨true, true, true⟩

/-- One fetched page in the loop of `fetch_category_offers`
(superbid_scraper.py, lines 151-236): HTTP 404; HTTP 200 with a parsed
`offers` array; HTTP 200 with a JSON decode error; HTTP 429; another
status code; a request timeout; any other exception. -/
inductive PageRes (Offer : Type) where
  | notFound
  | ok (offs : List Offer)
  | jsonErr
  | rate
  | status (code : Nat)
  | timeoutE
  | excE
deriving DecidableEq

/-- The loop state of `fetch_category_offers`: accumulated kept offers,
1-based page number, checkpoint counter, consecutive error counter, and
the iteration count used to index the cooperative timeout check. -/
structure FetchState (Offer : Type) where
  offers : List Offer
  page : Nat
  ckpt : Nat
  errs : Nat
  iter : Nat
deriving DecidableEq

/-- `SAVE_CHECKPOINT_EVERY` (superbid_scraper.py, line 24). -/
def SAVE_CHECKPOINT_EVERY : Nat := 1000

/-- `max_retries` (superbid_scraper.py, line 66). -/
def MAX_RETRIES : Nat := 3

/-- The `pageSize` parameter sent with every page request
(superbid_scraper.py, line 143). -/
def PAGE_SIZE_PARAM : Nat := 100

/-- The filter loop over one page (lines 175-194): classify each offer
(`classify` stands for `self.is_test_offer`; dropped offers only feed the
statistics counters), then keep it if the end-date check (`active?`,
which encloses the time-dependent `endDate` comparison whose parse errors
are swallowed) accepts it.  An exception from the classifier propagates to
the enclosing `except` branch of the page loop. -/
def filterPage (classify : Offer → Except PyErr (Bool × String))
    (active? : Offer → Bool) : List Offer → Except PyErr (List Offer)
  | [] => .ok []
  | o :: os => do
    let (isTest, _) ← classify o
    let rest ← filterPage classify active? os
    if isTest then pure rest
    else if active? o then pure (o :: rest) else pure rest

/-- Loop-body outcome: `stop` breaks out of the pagination loop,
`next` continues with the updated state. -/
inductive FetchStep (Offer : Type) where
  | stop (st : FetchState Offer)
  | next (st : FetchState Offer)
deriving DecidableEq

/-- The shared transient-error branch: `consecutive_errors += 1`, break
once it reaches `max_retries`, else retry (the page number unchanged). -/
def bumpErr (st : FetchState Offer) : FetchStep Offer :=
  if st.errs + 1 ≥ MAX_RETRIES then .stop { st with errs := st.errs + 1 }
  else .next { st with errs := st.errs + 1 }

/-- One iteration body of the `while` loop of `fetch_category_offers`
(lines 151-236), given the response for the current page: 404 breaks;
200 with an empty array breaks; 200 with offers filters them, extends the
accumulator, breaks if the raw page has fewer than 10 entries, else
checkpoints every `SAVE_CHECKPOINT_EVERY` accumulated offers and advances
the page with the error counter reset; everything else is a transient
error. -/
def handlePage (classify : Offer → Except PyErr (Bool × String))
    (active? : Offer → Bool) (st : FetchState Offer) :
    PageRes Offer → FetchStep Offer
  | .notFound => .stop st
  | .ok offs =>
    if offs.isEmpty then .stop st
    else
      match filterPage classify active? offs with
      | .error _ => bumpErr st
      | .ok active =>
        let st1 := { st with offers := st.offers ++ active }
        if offs.length < 10 then .stop st1
        else
          let st2 :=
            if st1.offers.length ≥ (st1.ckpt + 1) * SAVE_CHECKPOINT_EVERY then
              { st1 with ckpt := st1.ckpt + 1 }
            else st1
          .next { st2 with page := st2.page + 1, errs := 0 }
  | .jsonErr => bumpErr st
  | .rate => bumpErr st
  | .status _ => bumpErr st
  | .timeoutE => bumpErr st
  | .excE => bumpErr st

/-- Truthiness guard `if max_pages and page > max_pages` (line 133). -/
def maxPagesHit (maxPages : Option Nat) (page : Nat) : Bool :=
  match maxPages with
  | none => false
  | some m => m != 0 && page > m

/-- The pagination loop of `fetch_category_offers`, driven by the list of
successive network responses (one consumed per iteration that performs a
request; the deterministic retry of the same page number simply consumes
the next response).  `timeout` is the cooperative `check_timeout` guard,
indexed by iteration.  Returns the trace of `(page number, response)`
pairs processed and the final state. -/
def runFetch (classify : Offer → Except PyErr (Bool × String))
    (active? : Offer → Bool) (timeout : Nat → Bool) (maxPages : Option Nat) :
    List (PageRes Offer) → FetchState Offer →
      List (Nat × PageRes Offer) × FetchState Offer
  | resps, st =>
    if timeout st.iter then ([], st)
    else if maxPagesHit maxPages st.page then ([], st)
    else
      match resps with
      | [] => ([], st)
      | r :: rest =>
        match handlePage classify active? { st with iter := st.iter + 1 } r with
        | .stop st2 => ([(st.page, r)], st2)
        | .next st2 =>
          ((st.page, r) :: (runFetch classify active? timeout maxPages rest st2).1,
            (runFetch classify active? timeout maxPages rest st2).2)

/-- Whether a value is a dictionary. -/
def isObjJ : JVal → Bool
  | .obj _ => true
  | _ => false

/-- The nested object fetched by `offer.get(k, {})` in the classifier. -/
def nestedField (offer : PyDict) (k : String) : JVal :=
  jget offer k (.obj [])

/-- `v.get(k)` for a value known to be a dictionary (`.null` otherwise;
only used beneath an `isObjJ` hypothesis). -/
def objEntry (v : JVal) (k : String) : JVal :=
  match v with
  | .obj d => jget d k .null
  | _ => .null

/-- A leaf the classifier can coerce without raising: a string, or any
falsy value (which `x or ""` followed by `x.lower() if x else ""` turns
into the empty string). -/
def goodLeaf : JVal → Bool
  | .str _ => true
  | v => !pyTruthy v

/-- The raw-offer shape under which every access of `is_test_offer` is
defined: the five nested fields are each absent or dictionaries, and the
four text leaves it lowercases are strings or falsy. -/
def classifyShaped (offer : PyDict) : Bool :=
  isObjJ (nestedField offer "store") &&
  isObjJ (nestedField offer "seller") &&
  isObjJ (nestedField offer "auction") &&
  isObjJ (nestedField offer "product") &&
  isObjJ (nestedField offer "offerDescription") &&
  goodLeaf (objEntry (nestedField offer "seller") "name") &&
  goodLeaf (objEntry (nestedField offer "auction") "auctioneer") &&
  goodLeaf (objEntry (nestedField offer "product") "shortDesc") &&
  goodLeaf (objEntry (nestedField offer "offerDescription") "offerDescription")

/-- The null-safe coercion result on a good leaf: lowercased string
content, empty for anything falsy. -/
def coercedText : JVal → String
  | .str s => pyLower s
  | _ => ""

/-- The canonical record with its only time-derived field erased. -/
def stripDays (r : CanonicalRecord) : CanonicalRecord :=
  { r with days_remaining := none }

example : is_test_offer [] = .ok (true, "no_store") := rfl
example : is_test_offer [("store", .obj [("name", .str "Loja")])] = .ok (false, "") := rfl
example :
    is_test_offer [("store", .obj [("name", .str "Loja")]),
      ("seller", .obj [("name", .str "Vendedor Demo SA")])] = .ok (true, "demo_seller") := rfl
example :
    is_test_offer [("store", .obj [("name", .str "Loja")]), ("seller", .null)] =
      .error .attributeError := rfl

example : extract_city_state (.str "Rua X - SP") = .ok (some "Rua X", some "SP") := rfl
example : extract_city_state (.str "Rua X/SP") = .ok (some "Rua X", some "SP") := rfl
example : extract_city_state (.str "Rua X") = .ok (some "Rua X", none) := rfl
example : extract_city_state (.str "Rua X - XX") = .ok (some "Rua X", some "XX") := rfl

example : extract_state (some "Rua X - SP") = some "SP" := rfl
example : extract_state (some "Rua X/SP") = some "SP" := rfl
example : extract_state (some "Rua X") = none := rfl
example : extract_state (some "Rua X - XX") = none := rfl
example : extract_state (some "moro em sp capital") = some "SP" := rfl

example : parse_date 2026 (some "15/03/2025") = some "2025-03-15" := rfl
example : parse_date 2026 (some "2025-06-15") = some "2025-06-15" := rfl
example : parse_date 2026 (some "2021-06-15") = none := rfl
example : parse_date 2026 (some "not a date") = none := rfl
example : parse_date 2026 (some "ts 2031-12-31 end") = some "2031-12-31" := rfl
example : parse_date 2026 (some "2032-01-01") = none := rfl

example :
    upsert_fallback (fun _ => .status 200) [(1 : Nat), 2, 3] = ⟨3, 0, 0⟩ := by
  decide
set_option maxRecDepth 4000 in
example :
    upsert_fallback (fun i => if i == 0 then .status 409 else .status 201)
      (List.range 250) = ⟨50, 0, 200⟩ := by decide

theorem chStarts_iff (n : List Char) :
    ∀ h : List Char, chStarts n h = true ↔ ∃ t, h = n ++ t := by
  induction n with
  | nil =>
      intro h
      simp [chStarts]
  | cons a as ih =>
      intro h
      cases h with
      | nil =>
          simp [chStarts]
      | cons b bs =>
          simp only [chStarts, Bool.and_eq_true, beq_iff_eq, ih bs, List.cons_append,
            List.cons.injEq]
          constructor
          · rintro ⟨hab, t, ht⟩
            exact ⟨t, hab.symm, ht⟩
          · rintro ⟨t, hba, ht⟩
            exact ⟨hba.symm, t, ht⟩

theorem chHas_iff (n : List Char) :
    ∀ h : List Char, chHas n h = true ↔ ∃ p t, h = p ++ n ++ t := by
  intro h
  induction h with
  | nil =>
      simp only [chHas, List.isEmpty_iff]
      constructor
      · rintro rfl
        exact ⟨[], [], rfl⟩
      · rintro ⟨p, t, hpt⟩
        rcases List.append_eq_nil.mp hpt.symm with ⟨hpn, -⟩
        exact (List.append_eq_nil.mp hpn).2
  | cons c cs ih =>
      simp only [chHas, Bool.or_eq_true, chStarts_iff, ih]
      constructor
      · rintro (⟨t, ht⟩ | ⟨p, t, ht⟩)
        · exact ⟨[], t, by simpa using ht⟩
        · exact ⟨c :: p, t, by simp [ht]⟩
      · rintro ⟨p, t, hpt⟩
        cases p with
        | nil =>
            exact Or.inl ⟨t, by simpa using hpt⟩
        | cons p0 ps =>
            have hpt' := hpt
            simp only [List.cons_append, List.cons.injEq] at hpt'
            exact Or.inr ⟨ps, t, hpt'.2⟩

theorem strHas_trans {s a b : String} (h1 : strHas s a = true)
    (h2 : strHas a b = true) : strHas s b = true := by
  unfold strHas at *
  rcases (chHas_iff _ _).mp h1 with ⟨p, t, hs⟩
  rcases (chHas_iff _ _).mp h2 with ⟨q, u, ha⟩
  refine (chHas_iff _ _).mpr ⟨p ++ q, u ++ t, ?_⟩
  rw [hs, ha]
  simp

theorem coerceLower_goodLeaf {v : JVal} (h : goodLeaf v = true) :
    coerceLower v = .ok (coercedText v) := by
  cases v with
  | str s =>
      by_cases hs : s = ""
      · subst hs
        rfl
      · have ht : pyTruthy (.str s) = true := by simp [pyTruthy, hs]
        simp [coerceLower, coercedText, pyOr, ht, pyLowerJ]
  | null => rfl
  | bool b =>
      cases b with
      | true => simp [goodLeaf, pyTruthy] at h
      | false => rfl
  | int n =>
      simp only [goodLeaf, pyTruthy, Bool.not_eq_true'] at h
      simp only [coerceLower, coercedText, pyOr, pyTruthy, h]
      rfl
  | arr xs =>
      simp only [goodLeaf, pyTruthy, Bool.not_eq_true'] at h
      simp only [coerceLower, coercedText, pyOr, pyTruthy, h]
      rfl
  | obj fs =>
      simp only [goodLeaf, pyTruthy, Bool.not_eq_true'] at h
      simp only [coerceLower, coercedText, pyOr, pyTruthy, h]
      rfl

theorem ufs_two_upper :
    ufsList.all (fun u => decide (u.length = 2) && u.data.all Char.isUpper) = true := by
  decide

theorem chunksFuel_le {α : Type} (n : Nat) (hn : 1 ≤ n) :
    ∀ (fuel : Nat) (l : List α), l.length ≤ fuel →
      ∀ b ∈ chunksFuel n fuel l, b.length ≤ n := by
  intro fuel
  induction fuel with
  | zero =>
      intro l hl b hb
      rw [List.length_eq_zero.mp (Nat.le_zero.mp hl)] at hb
      simp [chunksFuel] at hb
  | succ fuel ih =>
      intro l hl b hb
      cases l with
      | nil => simp [chunksFuel] at hb
      | cons c t =>
          simp only [chunksFuel, List.mem_cons] at hb
          rcases hb with rfl | hb
          · simp only [List.length_take]
            exact Nat.min_le_left _ _
          · exact ih _ (by simp at hl ⊢; omega) b hb

theorem chunksFuel_flatten {α : Type} (n : Nat) (hn : 1 ≤ n) :
    ∀ (fuel : Nat) (l : List α), l.length ≤ fuel →
      (chunksFuel n fuel l).flatten = l := by
  intro fuel
  induction fuel with
  | zero =>
      intro l hl
      rw [List.length_eq_zero.mp (Nat.le_zero.mp hl)]
      rfl
  | succ fuel ih =>
      intro l hl
      cases l with
      | nil => rfl
      | cons c t =>
          simp only [chunksFuel, List.flatten_cons]
          rw [ih _ (by simp at hl ⊢; omega)]
          exact List.take_append_drop n (c :: t)

theorem runFallback_updated {α : Type} (respond : Nat → SinkResp) :
    ∀ (i : Nat) (bs : List (List α)),
      (runFallbackBatches respond i bs).updated = 0 := by
  intro i bs
  induction bs generalizing i with
  | nil => rfl
  | cons b bs ih =>
      simp only [runFallbackBatches, Stats3.add, fallbackScore]
      split <;> simpa using ih (i + 1)

theorem runFallback_success {α : Type} (respond : Nat → SinkResp)
    (h : ∀ i, sinkSuccess (respond i) = true) :
    ∀ (i : Nat) (bs : List (List α)),
      runFallbackBatches respond i bs = ⟨(bs.map List.length).sum, 0, 0⟩ := by
  intro i bs
  induction bs generalizing i with
  | nil => rfl
  | cons b bs ih =>
      simp only [runFallbackBatches, fallbackScore, h i, if_pos, ih (i + 1),
        Stats3.add, List.map_cons, List.sum_cons]

theorem runFallback_failure {α : Type} (respond : Nat → SinkResp)
    (h : ∀ i, sinkSuccess (respond i) = false) :
    ∀ (i : Nat) (bs : List (List α)),
      runFallbackBatches respond i bs = ⟨0, 0, (bs.map List.length).sum⟩ := by
  intro i bs
  induction bs generalizing i with
  | nil => rfl
  | cons b bs ih =>
      simp only [runFallbackBatches, fallbackScore, h i, ih (i + 1),
        Stats3.add, List.map_cons, List.sum_cons]
      simp

theorem handlePage_ok_next {Offer : Type}
    (classify : Offer → Except PyErr (Bool × String)) (active? : Offer → Bool)
    (st st2 : FetchState Offer) (offs : List Offer)
    (h : handlePage classify active? st (.ok offs) = .next st2)
    (hf : (filterPage classify active? offs).isOk = true) : 10 ≤ offs.length := by
  simp only [handlePage] at h
  by_cases he : offs.isEmpty
  · simp [he] at h
  · rw [if_neg he] at h
    cases hm : filterPage classify active? offs with
    | error e => rw [hm] at hf; simp [Except.isOk, Except.toBool] at hf
    | ok active =>
        rw [hm] at h
        by_cases hlen : offs.length < 10
        · simp [hlen] at h
        · omega

theorem eid_replace (r a : CanonicalRecord) :
    (if a.external_id == r.external_id then r else a).external_id = a.external_id := by
  by_cases h : a.external_id == r.external_id
  · simp only [if_pos h]
    exact (beq_iff_eq.mp h).symm
  · simp only [h]
    rfl

theorem eidInsert_pairwise {acc : List CanonicalRecord} {r : CanonicalRecord}
    (h : acc.Pairwise (fun a b => a.external_id ≠ b.external_id)) :
    (eidInsert acc r).Pairwise (fun a b => a.external_id ≠ b.external_id) := by
  unfold eidInsert
  by_cases ha : acc.any (fun a => a.external_id == r.external_id)
  · rw [if_pos ha]
    rw [List.pairwise_map]
    refine h.imp ?_
    intro a b hab
    rw [eid_replace, eid_replace]
    exact hab
  · rw [if_neg ha]
    rw [List.pairwise_append]
    refine ⟨h, by simp, ?_⟩
    intro a hma b hmb
    rcases List.mem_singleton.mp hmb with rfl
    have := List.any_eq_false.mp (Bool.of_not_eq_true ha) a hma
    simpa using this

theorem find_map_hit (r : CanonicalRecord) :
    ∀ acc : List CanonicalRecord,
      acc.any (fun a => a.external_id == r.external_id) = true →
      (acc.map (fun a => if a.external_id == r.external_id then r else a)).find?
        (fun x => x.external_id == r.external_id) = some r := by
  intro acc
  induction acc with
  | nil => intro h; simp at h
  | cons a as ih =>
      intro h
      by_cases hp : a.external_id == r.external_id
      · simp only [List.map_cons, if_pos hp]
        exact List.find?_cons_of_pos _ (by simp)
      · have hp' : (a.external_id == r.external_id) = false := Bool.of_not_eq_true hp
        simp only [List.any_cons, hp', Bool.false_or] at h
        simp only [List.map_cons, if_neg hp]
        rw [List.find?_cons_of_neg _ (by simp [hp'])]
        exact ih h

theorem find_map_miss (r : CanonicalRecord) (k : String)
    (hk : (r.external_id == k) = false) :
    ∀ acc : List CanonicalRecord,
      (acc.map (fun a => if a.external_id == r.external_id then r else a)).find?
        (fun x => x.external_id == k) = acc.find? (fun x => x.external_id == k) := by
  intro acc
  induction acc with
  | nil => rfl
  | cons a as ih =>
      by_cases hp : a.external_id == r.external_id
      · have hak : (a.external_id == k) = false := by
          rw [beq_iff_eq.mp hp]
          exact hk
        simp only [List.map_cons, if_pos hp]
        rw [List.find?_cons_of_neg _ (by simp [hk]), List.find?_cons_of_neg _ (by simp [hak])]
        exact ih
      · simp only [List.map_cons, if_neg hp]
        by_cases hak : a.external_id == k
        · simp only [List.find?, hak]
        · have hak' : (a.external_id == k) = false := Bool.of_not_eq_true hak
          simp only [List.find?, hak']
          exact ih

theorem any_false_find_none (k : String) (acc : List CanonicalRecord)
    (h : acc.any (fun a => a.external_id == k) = false) :
    acc.find? (fun x => x.external_id == k) = none := by
  rw [List.find?_eq_none]
  intro x hx
  have := List.any_eq_false.mp h x hx
  simpa using this

theorem dedup_append (rs : List CanonicalRecord) (r : CanonicalRecord) :
    dedupByEid (rs ++ [r]) = eidInsert (dedupByEid rs) r := by
  simp [dedupByEid, List.foldl_append]

theorem dedup_pairwise (rs : List CanonicalRecord) :
    (dedupByEid rs).Pairwise (fun a b => a.external_id ≠ b.external_id) := by
  induction rs using List.reverseRecOn with
  | nil => simp [dedupByEid]
  | append_singleton rs r ih =>
      rw [dedup_append]
      exact eidInsert_pairwise ih

theorem dedup_find (rs : List CanonicalRecord) (k : String) :
    (dedupByEid rs).find? (fun a => a.external_id == k) =
      (rs.filter (fun a => a.external_id == k)).getLast? := by
  induction rs using List.reverseRecOn generalizing k with
  | nil => rfl
  | append_singleton rs r ih =>
      rw [dedup_append, List.filter_append, List.getLast?_append]
      unfold eidInsert
      by_cases hk : r.external_id == k
      · have hkeq : r.external_id = k := beq_iff_eq.mp hk
        subst hkeq
        have hfr : (List.filter (fun a => a.external_id == r.external_id) [r]) = [r] := by
          rw [List.filter_cons, if_pos (by simp)]
          rfl
        rw [hfr]
        by_cases ha : (dedupByEid rs).any (fun a => a.external_id == r.external_id)
        · rw [if_pos ha, find_map_hit r _ ha]
          simp
        · rw [if_neg ha, List.find?_append,
            any_false_find_none _ _ (Bool.of_not_eq_true ha)]
          simp [List.find?_singleton]
      · have hkf : (r.external_id == k) = false := Bool.of_not_eq_true hk
        have hfr : (List.filter (fun a => a.external_id == k) [r]) = [] := by
          rw [List.filter_cons, if_neg (by simp [hkf])]
          rfl
        rw [hfr]
        by_cases ha : (dedupByEid rs).any (fun a => a.external_id == r.external_id)
        · rw [if_pos ha, find_map_miss r k hkf]
          simp [ih]
        · rw [if_neg ha, List.find?_append]
          have hrf : List.find? (fun a => a.external_id == k) [r] = none := by
            rw [List.find?_singleton, if_neg (by simp [hkf])]
          rw [hrf]
          simp [ih]

theorem endDatePair_fst (lib : DTLib) (now1 now2 : Int) (e : JVal) :
    (endDatePair lib now1 e).1 = (endDatePair lib now2 e).1 := by
  unfold endDatePair
  split
  · cases e with
    | str s => cases hf : lib.fromiso (s.replace "Z" "+00:00") <;> simp [hf]
    | null => rfl
    | bool b => rfl
    | int n => rfl
    | arr xs => rfl
    | obj fs => rfl
  · rfl

theorem isObj_exists {v : JVal} (h : isObjJ v = true) : ∃ d, v = .obj d := by
  cases v with
  | obj d => exact ⟨d, rfl⟩
  | null => simp [isObjJ] at h
  | bool b => simp [isObjJ] at h
  | int n => simp [isObjJ] at h
  | str s => simp [isObjJ] at h
  | arr xs => simp [isObjJ] at h

theorem vendedor_demo_has_demo : strHas "vendedor demo" "demo" = true := rfl

/-- C1: the claim states that a failure of the raw-archive call
(`insert_raw`) must not prevent the canonical `insert_normalized` upsert
from being attempted.  The code wraps both calls in one `try` block, so
when `insert_raw` raises, `upload_to_supabase` returns `False` without
ever reaching `insert_normalized` — and in the shipped repository
`SupabaseClient` defines no `insert_raw` method at all, so the archival
call raises `AttributeError` on every invocation.  This theorem evaluates
the embedded control flow at such failing runs: the import and client
construction succeed, `insert_raw` raises, and the canonical upsert is
never attempted, whatever `insert_normalized` would have done. -/
theorem c1_raw_failure_blocks_canonical (normRaises : Bool) (normResult : Int) :
    (upload_to_supabase ⟨false, false, true, normRaises, normResult⟩).rawAttempted = true ∧
    (upload_to_supabase ⟨false, false, true, normRaises, normResult⟩).normalizedAttempted
        = false ∧
    (upload_to_supabase ⟨false, false, true, normRaises, normResult⟩).result = false := by
  exact ⟨rfl, rfl, rfl⟩

/-- C2, counterexample: a raw offer whose `seller` key is present but
`None` (with a perfectly valid store) makes `is_test_offer` raise
`AttributeError` at `seller.get("name")`, because `offer.get("seller", {})`
only substitutes the default for an *absent* key.  The claim says
`classify` does not raise on such offers. -/
theorem c2_null_seller_raises :
    is_test_offer [("store", .obj [("name", .str "Loja X")]), ("seller", .null)] =
      .error .attributeError := rfl

/-- C2, amended: for every raw offer whose nested `store`, `seller`,
`auction`, `product` and `offerDescription` fields are each absent or
dictionaries (rather than present-but-null), and whose name/auctioneer/
title/description leaves are strings or falsy, `is_test_offer` does not
raise; a null or missing name coerces to the empty string, and the offer
is classified `demo_seller` only if the coerced seller name actually
contains "demo". -/
theorem c2_null_safe_classifier (offer : PyDict) (h : classifyShaped offer = true) :
    (∃ r, is_test_offer offer = .ok r) ∧
      (is_test_offer offer = .ok (true, "demo_seller") →
        strHas (coercedText (objEntry (nestedField offer "seller") "name")) "demo"
          = true) := by
  simp only [classifyShaped, Bool.and_eq_true, nestedField] at h
  obtain ⟨⟨⟨⟨⟨⟨⟨⟨hst, hse⟩, hau⟩, hpr⟩, hod⟩, hsn⟩, han⟩, hsd⟩, hde⟩ := h
  obtain ⟨ds, hS⟩ := isObj_exists hst
  obtain ⟨dsl, hSe⟩ := isObj_exists hse
  obtain ⟨dau, hAu⟩ := isObj_exists hau
  obtain ⟨dpr, hPr⟩ := isObj_exists hpr
  obtain ⟨dod, hOd⟩ := isObj_exists hod
  rw [hSe] at hsn
  rw [hAu] at han
  rw [hPr] at hsd
  rw [hOd] at hde
  simp only [objEntry] at hsn han hsd hde
  have hc1 := coerceLower_goodLeaf hsn
  have hc2 := coerceLower_goodLeaf han
  have hc3 := coerceLower_goodLeaf hsd
  have hc4 := coerceLower_goodLeaf hde
  simp only [nestedField, objEntry, hSe]
  simp only [is_test_offer, hS, hSe, hAu, hPr, hOd, vgetN, vgetD, hc1, hc2, hc3, hc4]
  by_cases h1 : pyTruthy (jget ds "name" .null)
  · simp only [h1, Bool.not_true, Bool.false_eq_true, if_false]
    by_cases h2 : strHas (coercedText (jget dsl "name" .null)) "vendedor demo" ||
        strHas (coercedText (jget dsl "name" .null)) "demo"
    · simp only [h2, if_true]
      refine ⟨⟨_, rfl⟩, fun _ => ?_⟩
      rcases Bool.or_eq_true _ _ |>.mp h2 with hl | hr
      · exact strHas_trans hl vendedor_demo_has_demo
      · exact hr
    · simp only [h2, if_false]
      by_cases h3 : strHas (coercedText (jget dau "auctioneer" .null)) "demo" ||
          strHas (coercedText (jget dau "auctioneer" .null)) "corretor demo" ||
          strHas (coercedText (jget dau "auctioneer" .null)) "leiloeiro demo"
      · simp only [h3, if_true]
        exact ⟨⟨_, rfl⟩, by simp⟩
      · simp only [h3, if_false]
        by_cases h4 : strHas (coercedText (jget dpr "shortDesc" .null)) "deploy" ||
            strHas (coercedText (jget dod "offerDescription" .null)) "deploy"
        · simp only [h4, if_true]
          exact ⟨⟨_, rfl⟩, by simp⟩
        · simp only [h4, if_false]
          exact ⟨⟨_, rfl⟩, by simp⟩
  · simp only [h1]
    exact ⟨⟨_, rfl⟩, by simp⟩

/-- C2, witness: a concrete well-shaped offer whose seller name contains
"demo"; the amended theorem applies and yields that the coerced name
contains "demo". -/
theorem c2_null_safe_classifier_witness :
    strHas
      (coercedText (objEntry
        (nestedField [("store", JVal.obj [("name", JVal.str "Loja")]),
          ("seller", JVal.obj [("name", JVal.str "Vendedor Demo SA")])] "seller") "name"))
      "demo" = true :=
  (c2_null_safe_classifier
    [("store", JVal.obj [("name", JVal.str "Loja")]),
     ("seller", JVal.obj [("name", JVal.str "Vendedor Demo SA")])]
    (by decide)).2 rfl

/-- C3, counterexample: the scraper-side `extract_city_state` validates a
state candidate only by "length 2 and uppercase", not against the fixed
set of 27 region codes, so `"Rua X - XX"` yields state `"XX"` — which is
not a real code — rather than null as the claim requires. -/
theorem c3_scraper_keeps_unknown_code :
    extract_city_state (.str "Rua X - XX") = .ok (some "Rua X", some "XX") ∧
      ufsList.contains "XX" = false := ⟨rfl, rfl⟩

/-- C3, amended: the client-side `extract_state` returns null or a member
of the fixed 27-code set (each exactly two uppercase letters) for every
input, and behaves as the claim's four examples require; the scraper-side
`extract_city_state` agrees on the three well-formed examples but keeps
the fake code `"XX"` (see the counterexample), since it checks only
length-2-and-uppercase. -/
theorem c3_state_from_fixed_set :
    (∀ t : Option String,
        extract_state t = none ∨
          ∃ uf, extract_state t = some uf ∧ ufsList.contains uf = true ∧
            uf.length = 2 ∧ uf.data.all Char.isUpper = true) ∧
      extract_state (some "Rua X - SP") = some "SP" ∧
      extract_state (some "Rua X/SP") = some "SP" ∧
      extract_state (some "Rua X") = none ∧
      extract_state (some "Rua X - XX") = none ∧
      extract_city_state (.str "Rua X - SP") = .ok (some "Rua X", some "SP") ∧
      extract_city_state (.str "Rua X/SP") = .ok (some "Rua X", some "SP") ∧
      extract_city_state (.str "Rua X") = .ok (some "Rua X", none) := by
  refine ⟨?_, rfl, rfl, rfl, rfl, rfl, rfl, rfl⟩
  intro t
  have hUFS : ∀ u, ufsList.contains u = true →
      u.length = 2 ∧ u.data.all Char.isUpper = true := by
    intro u hu
    have hmem : u ∈ ufsList := by simpa using hu
    have hall := List.all_eq_true.mp ufs_two_upper u hmem
    simp only [Bool.and_eq_true, decide_eq_true_eq] at hall
    exact hall
  cases t with
  | none => exact Or.inl rfl
  | some s =>
      by_cases hs : s = ""
      · subst hs
        exact Or.inl rfl
      · simp only [extract_state, if_neg hs]
        cases hm : stateEndMatch (pyUpper s) with
        | some uf =>
            by_cases hc : ufsList.contains uf
            · refine Or.inr ⟨uf, ?_, hc, hUFS uf hc⟩
              show (if ufsList.contains uf = true then some uf else none) = some uf
              rw [if_pos hc]
            · left
              show (if ufsList.contains uf = true then some uf else none) = none
              rw [if_neg hc]
        | none =>
            cases hf : (pySplitWs (pyUpper s)).find? (fun w => ufsList.contains w) with
            | none => exact Or.inl rfl
            | some uf =>
                have hc := List.find?_some hf
                exact Or.inr ⟨uf, rfl, hc, hUFS uf hc⟩

/-- C4, counterexample: the claim says a page with fewer results than the
nominal page size (100, `PAGE_SIZE_PARAM`) ends pagination.  Here page 1
is fetched successfully with 50 results — short of 100 — yet the loop
requests page 2 (which answers 404): the processed trace has two entries,
so the short-by-the-claim page was not treated as the last page.  The
code's cutoff is `len(page_offers) < 10`, not the page size. -/
theorem c4_fifty_not_last :
    ((runFetch (fun (_ : Unit) => Except.ok ((false, "") : Bool × String)) (fun _ => true)
        (fun _ => false) none
        [.ok (List.replicate 50 ()), .notFound] ⟨[], 1, 0, 0, 0⟩).1 =
      [(1, .ok (List.replicate 50 ())), (2, .notFound)]) ∧
      (List.replicate 50 (() : Unit)).length < PAGE_SIZE_PARAM := by
  constructor
  · decide
  · decide

/-- C4, amended: in the pagination loop, every successfully fetched and
successfully filtered page with fewer than 10 results (the code's
threshold, not the nominal page size of 100) is treated as the last page:
no entry of the processed trace that is followed by another entry can be a
success page of fewer than 10 offers whose filtering succeeded. -/
theorem c4_short_page_is_last {Offer : Type}
    (classify : Offer → Except PyErr (Bool × String)) (active? : Offer → Bool)
    (timeout : Nat → Bool) (maxPages : Option Nat)
    (resps : List (PageRes Offer)) (st : FetchState Offer)
    (l1 l2 : List (Nat × PageRes Offer)) (p : Nat) (offs : List Offer)
    (htr : (runFetch classify active? timeout maxPages resps st).1 =
      l1 ++ (p, .ok offs) :: l2)
    (hl2 : l2 ≠ [])
    (hfil : (filterPage classify active? offs).isOk = true) :
    10 ≤ offs.length := by
  induction resps generalizing st l1 with
  | nil =>
      rw [runFetch] at htr
      by_cases ht : timeout st.iter
      · rw [if_pos ht] at htr
        simp at htr
      · rw [if_neg ht] at htr
        by_cases hmp : maxPagesHit maxPages st.page = true
        · rw [if_pos hmp] at htr
          simp at htr
        · rw [if_neg hmp] at htr
          simp at htr
  | cons r rest ih =>
      rw [runFetch] at htr
      by_cases ht : timeout st.iter
      · rw [if_pos ht] at htr
        simp at htr
      · rw [if_neg ht] at htr
        by_cases hmp : maxPagesHit maxPages st.page = true
        · rw [if_pos hmp] at htr
          simp at htr
        · rw [if_neg hmp] at htr
          cases hh : handlePage classify active? { st with iter := st.iter + 1 } r with
          | stop st2 =>
              rw [hh] at htr
              rcases l1 with _ | ⟨a, l1t⟩
              · simp only [List.nil_append] at htr
                exact absurd (List.cons.inj htr).2.symm hl2
              · have hlen := congrArg List.length htr
                simp [List.length_append] at hlen
          | next st2 =>
              rw [hh] at htr
              rcases l1 with _ | ⟨a, l1t⟩
              · simp only [List.nil_append, List.cons.injEq, Prod.mk.injEq] at htr
                rcases htr with ⟨⟨hp1, hr⟩, htail⟩
                subst hr
                exact handlePage_ok_next classify active? _ _ offs hh hfil
              · simp only [List.cons_append, List.cons.injEq] at htr
                exact ih st2 l1t htr.2
  
/-- C4, witness for the amended theorem: a concrete two-page run whose
first page has 12 offers and is followed by a 404 page; the theorem
applies and yields that the non-final success page has at least 10
offers. -/
theorem c4_short_page_is_last_witness :
    10 ≤ (List.replicate 12 (() : Unit)).length :=
  c4_short_page_is_last (fun _ => .ok (false, "")) (fun _ => true) (fun _ => false)
    none [.ok (List.replicate 12 ()), .notFound] ⟨[], 1, 0, 0, 0⟩
    [] [(2, .notFound)] 1 (List.replicate 12 ())
    (by decide) (by decide) (by decide)

/-- C5, counterexample: on the degraded path a batch whose POST succeeds
with 200 — which is what an entirely conflict-merged batch returns under
`resolution=merge-duplicates` — is credited to `inserted`, not to
`updated` as the claim states: the `updated` counter stays 0. -/
theorem c5_conflict_batch_counted_inserted :
    upsert_fallback (fun _ => .status 200) [(0 : Nat), 1, 2] = ⟨3, 0, 0⟩ := by
  decide

/-- C5, amended: the degraded path partitions records into batches of at
most 200; the `updated` counter is never incremented (a fully
conflict-merged success batch is credited to `inserted`); when every
batch responds with a success status nothing is added to `errors` and
the whole input is counted as inserted; only non-success statuses (or
exceptions) add the batch size to `errors`. -/
theorem c5_fallback_degraded_path (α : Type) :
    (∀ items : List α,
        (chunksOf 200 items).all (fun b => decide (b.length ≤ 200)) = true) ∧
    (∀ (respond : Nat → SinkResp) (items : List α),
        (upsert_fallback respond items).updated = 0) ∧
    (∀ (respond : Nat → SinkResp) (items : List α),
        (∀ i, sinkSuccess (respond i) = true) →
        upsert_fallback respond items = ⟨items.length, 0, 0⟩) ∧
    (∀ (respond : Nat → SinkResp) (items : List α),
        (∀ i, sinkSuccess (respond i) = false) →
        upsert_fallback respond items = ⟨0, 0, items.length⟩) := by
  have hsum : ∀ items : List α,
      ((chunksOf 200 items).map List.length).sum = items.length := by
    intro items
    have hflat := chunksFuel_flatten 200 (by omega) items.length items (le_refl _)
    calc ((chunksOf 200 items).map List.length).sum
        = (chunksOf 200 items).flatten.length := (List.length_flatten _).symm
      _ = items.length := by rw [chunksOf, hflat]
  refine ⟨?_, ?_, ?_, ?_⟩
  · intro items
    rw [List.all_eq_true]
    intro b hb
    simpa using chunksFuel_le 200 (by omega) items.length items (le_refl _) b hb
  · intro respond items
    exact runFallback_updated respond 0 _
  · intro respond items h
    rw [upsert_fallback, runFallback_success respond h, hsum items]
  · intro respond items h
    rw [upsert_fallback, runFallback_failure respond h, hsum items]

/-- C5, witness: five records, every batch answering 201: the amended
theorem gives all five counted as inserted and zero errors. -/
theorem c5_fallback_degraded_path_witness :
    upsert_fallback (fun _ => .status 201) (List.range 5) = ⟨5, 0, 0⟩ :=
  (c5_fallback_degraded_path Nat).2.2.1 _ _ (fun _ => rfl)

/-- C6: for every raw offer whose store field is a dictionary with an
absent, null or empty name — in Python terms, `store.get("name")` falsy —
`is_test_offer` returns `(True, "no_store")` whatever every other field
holds (the store rule is evaluated first and short-circuits, so even a
null seller that would make a later rule raise is never reached). -/
theorem c6_no_store_first_match (offer : PyDict)
    (hobj : isObjJ (nestedField offer "store") = true)
    (hname : pyTruthy (objEntry (nestedField offer "store") "name") = false) :
    is_test_offer offer = .ok (true, "no_store") := by
  simp only [nestedField] at hobj hname
  obtain ⟨ds, hS⟩ := isObj_exists hobj
  rw [hS] at hname
  simp only [objEntry] at hname
  simp only [is_test_offer, hS, vgetN, vgetD, hname]
  rfl

/-- C6, witness: a concrete offer with an empty store dict, a null seller
and a numeric product — fields that would raise in later rules — is
classified `no_store`. -/
theorem c6_no_store_first_match_witness :
    is_test_offer [("store", .obj []), ("seller", .null), ("product", .int 5)] =
      .ok (true, "no_store") :=
  c6_no_store_first_match _ (by decide) (by decide)

/-- C7: `parse_date` (with `datetime.now().year` as the explicit
`current_year`) returns null when the input contains neither an ISO
`YYYY-MM-DD` nor a `DD/MM/YYYY` pattern (and, being a total function of
its input, never raises); when an ISO pattern is found, the result is null
exactly when the matched year lies outside
`[current_year - 2, current_year + 5]` — so a date one year in the past
is accepted and a date five years in the past is rejected — and
`"15/03/2025"` normalizes to `"2025-03-15"`. -/
theorem c7_date_bounds :
    (∀ cy : Int, parse_date cy none = none) ∧
    (∀ (cy : Int) (s : String), scanIso s.data = none → scanBr s.data = none →
        parse_date cy (some s) = none) ∧
    (∀ (cy : Int) (s : String) (p : String), scanIso s.data = some p →
        (fourDigitVal p < cy - 2 ∨ fourDigitVal p > cy + 5) →
        parse_date cy (some s) = none) ∧
    (∀ (cy : Int) (s : String) (p : String), scanIso s.data = some p →
        cy - 2 ≤ fourDigitVal p → fourDigitVal p ≤ cy + 5 →
        parse_date cy (some s) = some p) ∧
    parse_date 2026 (some "2025-06-15") = some "2025-06-15" ∧
    parse_date 2026 (some "2021-06-15") = none ∧
    parse_date 2026 (some "15/03/2025") = some "2025-03-15" := by
  refine ⟨fun _ => rfl, ?_, ?_, ?_, rfl, rfl, rfl⟩
  · intro cy s h1 h2
    by_cases hs : s = ""
    · subst hs
      rfl
    · simp [parse_date, if_neg hs, h1, h2]
  · intro cy s p hm hb
    have hs : ¬s = "" := by
      intro he
      subst he
      simp [scanIso] at hm
    simp only [parse_date, if_neg hs, hm]
    rcases hb with h | h <;> simp [h]
  · intro cy s p hm hlo hhi
    have hs : ¬s = "" := by
      intro he
      subst he
      simp [scanIso] at hm
    have h1 : ¬(fourDigitVal p < cy - 2) := by omega
    have h2 : ¬(fourDigitVal p > cy + 5) := by omega
    simp only [parse_date, if_neg hs, hm]
    simp [h1, h2]

/-- C7, witness: an ISO date two years in the future of `current_year`
2030, wrapped in surrounding text, is inside the bound and extracted. -/
theorem c7_date_bounds_witness :
    parse_date 2030 (some "ts 2028-01-02 end") = some "2028-01-02" :=
  (c7_date_bounds).2.2.2.1 2030 "ts 2028-01-02 end" "2028-01-02"
    rfl (by decide) (by decide)

/-- C8: the dict-comprehension dedup applied before every flush keeps
exactly one record per `external_id` (pairwise distinct ids in the
result), the survivor for each id being the last record with that id in
input order; and the checkpoint/category-final payload handed to
`upload_to_supabase` is exactly this dedup applied to the normalized
records, so no two records with the same `external_id` are ever passed to
the upsert client in one call. -/
theorem c8_dedup_last_wins :
    (∀ rs : List CanonicalRecord,
        (dedupByEid rs).Pairwise (fun a b => a.external_id ≠ b.external_id)) ∧
    (∀ (rs : List CanonicalRecord) (k : String),
        (dedupByEid rs).find? (fun a => a.external_id == k) =
          (rs.filter (fun a => a.external_id == k)).getLast?) ∧
    (∀ (lib : DTLib) (now : Int) (offers : List PyDict) (slug : String),
        checkpointPayload lib now offers slug =
          (offers.mapM (fun o => normalize_to_schema lib now o slug)).map dedupByEid) :=
  ⟨dedup_pairwise, dedup_find, fun _ _ _ _ => rfl⟩

/-- C10: `upsert_normalized` on an empty record list returns exactly
zeroed counters with `time_ms = 0` and issues no sink request, regardless
of whether the RPC capability is available (both paths are covered by the
universally quantified `rpcAvailable`). -/
theorem c10_empty_upsert_noop (α : Type) (rpcAvailable : Bool) (elapsedMs : Nat)
    (rpcRespond : Nat → RpcResp) (fbRespond : Nat → SinkResp) :
    @upsert_normalized α rpcAvailable elapsedMs rpcRespond fbRespond [] =
      (⟨0, 0, 0, 0⟩, 0) := rfl

theorem except_map_bind_congr {ε α β γ : Type} (e : Except ε α)
    (f g : α → Except ε β) (h : β → γ)
    (H : ∀ a, (f a).map h = (g a).map h) :
    (e >>= f).map h = (e >>= g).map h := by
  cases e with
  | error err => rfl
  | ok a => exact H a

set_option maxHeartbeats 1000000 in
/-- C9: `normalize_to_schema` is deterministic up to its only time-derived
field.  The current time (`datetime.now()`) enters the translation solely
through the `now` parameter, and two runs on the same raw offer, category
slug and datetime library agree on every field of the canonical record —
and on whether they raise — once `days_remaining` is erased. -/
theorem c9_normalize_deterministic (lib : DTLib) (now1 now2 : Int)
    (offer : PyDict) (category_slug : String) :
    (normalize_to_schema lib now1 offer category_slug).map stripDays =
      (normalize_to_schema lib now2 offer category_slug).map stripDays := by
  simp only [normalize_to_schema]
  refine except_map_bind_congr _ _ _ _ fun a1 => ?_
  refine except_map_bind_congr _ _ _ _ fun a2 => ?_
  refine except_map_bind_congr _ _ _ _ fun a3 => ?_
  refine except_map_bind_congr _ _ _ _ fun a4 => ?_
  refine except_map_bind_congr _ _ _ _ fun a5 => ?_
  refine except_map_bind_congr _ _ _ _ fun a6 => ?_
  refine except_map_bind_congr _ _ _ _ fun a7 => ?_
  refine except_map_bind_congr _ _ _ _ fun a8 => ?_
  refine except_map_bind_congr _ _ _ _ fun a9 => ?_
  refine except_map_bind_congr _ _ _ _ fun a10 => ?_
  refine except_map_bind_congr _ _ _ _ fun a11 => ?_
  refine except_map_bind_congr _ _ _ _ fun a12 => ?_
  refine except_map_bind_congr _ _ _ _ fun a13 => ?_
  refine except_map_bind_congr _ _ _ _ fun a14 => ?_
  refine except_map_bind_congr _ _ _ _ fun a15 => ?_
  refine except_map_bind_congr _ _ _ _ fun a16 => ?_
  refine except_map_bind_congr _ _ _ _ fun a17 => ?_
  refine except_map_bind_congr _ _ _ _ fun a18 => ?_
  refine except_map_bind_congr _ _ _ _ fun a19 => ?_
  refine except_map_bind_congr _ _ _ _ fun a20 => ?_
  refine except_map_bind_congr _ _ _ _ fun a21 => ?_
  refine except_map_bind_congr _ _ _ _ fun a22 => ?_
  refine except_map_bind_congr _ _ _ _ fun a23 => ?_
  refine except_map_bind_congr _ _ _ _ fun a24 => ?_
  refine except_map_bind_congr _ _ _ _ fun a25 => ?_
  simp only [pure, Except.pure, Except.map, stripDays]
  rw [endDatePair_fst lib now1 now2]
